import Mathlib

/-!
Verification of the capture-to-dispatch pipeline of `vrchat_translator.py`
(class `VRChatTranslator`): a shallow embedding of the hotkey/recording
state machine, the FIFO translation worker, transcription, semantic
correction, per-language translation fan-out, output formatting and the
OSC dispatch, together with theorems settling the specification claims.

External collaborators (the Whisper model, the chat-completion service,
the OSC transport) are modelled as oracles supplied to the embedded
functions; everything the Python code does with their results is
translated faithfully.
-/

namespace VRCT

/-- Result of one call to an external service (the speech-to-text model or
the chat-completion endpoint): either a returned text, or a raised
exception / timeout. -/
inductive ServiceResult where
  | ok : String → ServiceResult
  | failure : ServiceResult
deriving DecidableEq, Repr

/-- The external collaborators one pipeline job consults: the Whisper
transcription call, the semantic-correction completion call, and one
translation completion call per target language. -/
structure Services where
  stt : ServiceResult
  correct : ServiceResult
  translate : String → ServiceResult

/-- Python `str.strip()` on the character list: drop whitespace from both
ends. -/
def stripChars (l : List Char) : List Char :=
  ((l.dropWhile Char.isWhitespace).reverse.dropWhile Char.isWhitespace).reverse

/-- Python `str.strip()`. -/
def pyStrip (s : String) : String :=
  ⟨stripChars s.data⟩

/-- A Python dict assignment `d[k] = v` viewed on the insertion-ordered
association list: an existing key keeps its position and gets the new
value, a fresh key is appended. -/
def dictInsert (d : List (String × String)) (k v : String) :
    List (String × String) :=
  if d.any (fun p => p.1 == k) then
    d.map (fun p => if p.1 == k then (p.1, v) else p)
  else
    d ++ [(k, v)]

/-- Embedding of `semantic_correction` (vrchat_translator.py:307-349). Returns the
corrected text together with whether the correction service was actually
called. Texts whose stripped length is below 2 are returned unchanged
without a call; a failed call, an empty response, or a response equal to
the input all fall back to the original text. -/
def semantic_correction (svc : Services) (text : String) : String × Bool :=
  if text = "" ∨ (pyStrip text).length < 2 then
    (text, false)
  else
    match svc.correct with
    | .failure => (text, true)
    | .ok resp =>
      let corrected_text := pyStrip resp
      if corrected_text = "" ∨ corrected_text = text then (text, true)
      else (corrected_text, true)

/-- Embedding of `translate_text` (vrchat_translator.py:351-378). Returns the translated
text (the empty string on a failed call, mirroring the `except` branch)
together with whether the translation service was called for this
language. -/
def translate_text (svc : Services) (text target_language : String) :
    String × Bool :=
  if text = "" then
    ("", false)
  else
    match svc.translate target_language with
    | .failure => ("", true)
    | .ok resp => (pyStrip resp, true)

/-- One OSC datagram as produced by `send_to_vrchat`: address path plus the
ordered payload triple `[message, immediate, noLoop]`. -/
structure Datagram where
  address : String
  message : String
  immediate : Bool
  noLoop : Bool
deriving DecidableEq, Repr

/-- Embedding of `send_to_vrchat` (vrchat_translator.py:434-447). Returns the list of
datagrams handed to the transport: none for an empty message (warning
only), exactly one otherwise. A transport exception is caught and logged,
so the attempted datagram is reported either way and nothing propagates. -/
def send_to_vrchat (oscSend : Datagram → Except String Unit) (text : String) :
    List Datagram :=
  if text = "" then
    []
  else
    let d : Datagram := ⟨"/chatbox/input", text, true, false⟩
    match oscSend d with
    | .ok _ => [d]
    | .error _ => [d]

/-- Byte count of the joined audio frames; each frame is recorded by its
length in bytes. -/
def audioBytes (frames : List Nat) : Nat :=
  frames.sum

/-- Number of int16 samples obtained from the joined frames
(`np.frombuffer(..., dtype=np.int16)`). -/
def sampleCount (frames : List Nat) : Nat :=
  audioBytes frames / 2

/-- Embedding of `transcribe_audio` (vrchat_translator.py:269-305). Returns the
(possibly corrected) transcription, whether the Whisper model was called,
and whether the correction service was called. Audio shorter than
`RATE * 0.5` samples is rejected before any model call; a failed model
call or an empty stripped transcription yields `none`. -/
def transcribe_audio (rate : Nat) (svc : Services) (frames : List Nat) :
    Option String × Bool × Bool :=
  if 2 * sampleCount frames < rate then
    (none, false, false)
  else
    match svc.stt with
    | .failure => (none, true, false)
    | .ok raw =>
      let original_text := pyStrip raw
      if original_text = "" then
        (none, true, false)
      else
        let c := semantic_correction svc original_text
        (some c.1, true, c.2)

/-- One step of the translation fan-out loop (vrchat_translator.py:396-399):
translate to one language and record it in the dict only when the result
is non-empty, while tracing which languages were actually sent to the
service. -/
def translationStep (svc : Services) (text : String)
    (acc : List (String × String) × List String) (lang : String) :
    List (String × String) × List String :=
  let r := translate_text svc text lang
  (if r.1 = "" then acc.1 else dictInsert acc.1 lang r.1,
   acc.2 ++ (if r.2 then [lang] else []))

/-- The fan-out loop `for lang in self.target_languages`
(vrchat_translator.py:395-399): build the `translations` dict in
configured order. -/
def buildTranslations (svc : Services) (targets : List String)
    (text : String) : List (String × String) × List String :=
  targets.foldl (translationStep svc text) ([], [])

/-- Python `sep.join(lines)`: the first element, then each further element
preceded by the separator; the empty string on an empty list. -/
def pyJoin (sep : String) : List String → String
  | [] => ""
  | a :: as => as.foldl (fun acc x => acc ++ sep ++ x) a

/-- Embedding of `format_output` (vrchat_translator.py:416-432): the non-empty
translation values in dict order, then the original text when non-empty,
joined by newlines. -/
def format_output (translations : List (String × String))
    (original_text : String) : String :=
  let lines := translations.filterMap
    (fun p => if p.2 = "" then none else some p.2)
  let lines := if original_text = "" then lines else lines ++ [original_text]
  pyJoin "\n" lines

/-- The observable effects of processing one dequeued job in
`process_translation_queue` (vrchat_translator.py:388-408). -/
structure JobResult where
  sttCalled : Bool
  correctCalled : Bool
  translateCalls : List String
  translations : List (String × String)
  dispatched : List Datagram
deriving Repr

/-- The `if original_text:` part of the worker body
(vrchat_translator.py:393-405): fan out the translations, format, and
dispatch; a falsy (empty) text short-circuits everything. Returns the
translations dict, the languages sent to the translation service, and the
datagrams dispatched. -/
def processText (svc : Services) (targets : List String)
    (oscSend : Datagram → Except String Unit) (original_text : String) :
    List (String × String) × List String × List Datagram :=
  if original_text = "" then
    ([], [], [])
  else
    let b := buildTranslations svc targets original_text
    let output_text := format_output b.1 original_text
    (b.1, b.2, send_to_vrchat oscSend output_text)

/-- Processing of one dequeued `audio_data` job
(vrchat_translator.py:388-408): transcribe (with semantic correction),
then translate / format / dispatch when the transcription is truthy. -/
def processJob (rate : Nat) (svc : Services) (targets : List String)
    (oscSend : Datagram → Except String Unit) (frames : List Nat) :
    JobResult :=
  let t := transcribe_audio rate svc frames
  match t.1 with
  | none => ⟨t.2.1, t.2.2, [], [], []⟩
  | some original_text =>
    let p := processText svc targets oscSend original_text
    ⟨t.2.1, t.2.2, p.2.1, p.1, p.2.2⟩

/-- One enqueued pipeline job: the captured frames together with the
external-service behaviour this job will observe. -/
structure Job where
  frames : List Nat
  svc : Services
  oscSend : Datagram → Except String Unit

/-- The worker loop `process_translation_queue`
(vrchat_translator.py:380-414) run over the items it will dequeue, in
queue order: `none` is the shutdown sentinel. Returns the job results in
processing order and whether the loop terminated. An exhausted list
models the worker blocking on `queue.get` (the `queue.Empty → continue`
branch): the loop is still running, so the flag is `false`; only the
sentinel makes it `true`. -/
def process_translation_queue (rate : Nat) (targets : List String) :
    List (Option Job) → List JobResult × Bool
  | [] => ([], false)
  | none :: _ => ([], true)
  | some j :: rest =>
    let r := process_translation_queue rate targets rest
    (processJob rate j.svc targets j.oscSend j.frames :: r.1, r.2)

/-- The mutable state shared between the hotkey listener, the recording
thread and the worker thread: the flags, the frame buffer, and the
translation queue. `sessionsStarted` counts successful
armed-to-recording transitions, i.e. RecordingSessions begun. -/
structure SysState where
  is_recording : Bool
  is_translating : Bool
  hotkey_pressed : Bool
  audio_data : List Nat
  translation_queue : List (List Nat)
  sessionsStarted : Nat
deriving Repr

/-- Embedding of `start_recording` (vrchat_translator.py:203-232). A press while
already recording returns immediately. Otherwise the flag is set and the
buffer cleared; `openOk` tells whether `self.audio.open` succeeds — on an
exception the handler resets `is_recording` to `False`. -/
def start_recording (openOk : Bool) (s : SysState) : SysState :=
  if s.is_recording then
    s
  else if openOk then
    { s with is_recording := true, audio_data := [],
             sessionsStarted := s.sessionsStarted + 1 }
  else
    { s with is_recording := false, audio_data := [] }

/-- Embedding of `stop_recording` (vrchat_translator.py:243-267). Returns immediately
when not recording; otherwise clears the flag and enqueues the buffered
frames when there are any — an empty buffer is only logged as an error
and nothing is enqueued. -/
def stop_recording (s : SysState) : SysState :=
  if s.is_recording = false then
    s
  else
    let s := { s with is_recording := false }
    if s.audio_data ≠ [] then
      { s with translation_queue := s.translation_queue ++ [s.audio_data],
               audio_data := [] }
    else
      s

/-- Embedding of `on_press` (vrchat_translator.py:456-467) for one key event;
`isHotkey` holds when the event's character matches the configured
trigger key (case-insensitively). Recording starts only when neither
recording nor translating. -/
def on_press (isHotkey openOk : Bool) (s : SysState) : SysState :=
  if isHotkey then
    let s := { s with hotkey_pressed := true }
    if s.is_recording = false ∧ s.is_translating = false then
      start_recording openOk s
    else
      s
  else
    s

/-- Embedding of `on_release` (vrchat_translator.py:469-480). -/
def on_release (isHotkey : Bool) (s : SysState) : SysState :=
  if isHotkey then
    let s := { s with hotkey_pressed := false }
    if s.is_recording then stop_recording s else s
  else
    s

/-- A keyboard event as seen by the listener: a press (with the outcome
the audio-stream open would have) or a release. -/
inductive KeyEvent where
  | press (isHotkey openOk : Bool)
  | release (isHotkey : Bool)
deriving DecidableEq, Repr

/-- Dispatch one keyboard event to its handler. -/
def stepKey (e : KeyEvent) (s : SysState) : SysState :=
  match e with
  | .press h o => on_press h o s
  | .release h => on_release h s

/-- Run a sequence of keyboard events through the listener. -/
def runKeys (evs : List KeyEvent) (s : SysState) : SysState :=
  evs.foldl (fun s e => stepKey e s) s

/-- A transport that delivers every datagram. -/
def oscOk : Datagram → Except String Unit :=
  fun _ => Except.ok ()

/-- A transport that fails on every datagram. -/
def oscDown : Datagram → Except String Unit :=
  fun _ => Except.error "network unreachable"

/-- Service behaviour of the end-to-end example: transcription 你好世界,
refinement unchanged, English and Japanese translations succeed. -/
def svcDemo : Services :=
  ⟨ServiceResult.ok "你好世界", ServiceResult.ok "你好世界",
   fun l => if l = "en" then ServiceResult.ok "Hello world"
            else ServiceResult.ok "こんにちは世界"⟩

/-- Service behaviour where only the Japanese translation call throws. -/
def svcOneFail : Services :=
  ⟨ServiceResult.ok "你好", ServiceResult.ok "你好",
   fun l => if l = "ja" then ServiceResult.failure
            else ServiceResult.ok "Hello"⟩

/-- Service behaviour where the correction call throws and the rest
succeeds. -/
def svcRefineDown : Services :=
  ⟨ServiceResult.ok "你好", ServiceResult.failure,
   fun _ => ServiceResult.ok "Hello"⟩

/-- Service behaviour where the speech-to-text call throws. -/
def svcSttDown : Services :=
  ⟨ServiceResult.failure, ServiceResult.ok "ok", fun _ => ServiceResult.ok "ok"⟩

/-- An idle system state: nothing recorded, nothing queued. -/
def s0 : SysState :=
  ⟨false, false, false, [], [], 0⟩

/-- Stripping never lengthens a character list. -/
lemma stripChars_length_le (l : List Char) : (stripChars l).length ≤ l.length := by
  have h1 := (List.dropWhile_sublist (p := Char.isWhitespace)
      (l := (l.dropWhile Char.isWhitespace).reverse)).length_le
  have h2 := (List.dropWhile_sublist (p := Char.isWhitespace) (l := l)).length_le
  simp only [stripChars, List.length_reverse] at h1 ⊢
  omega

/-- Python `strip` never lengthens a string. -/
lemma pyStrip_length_le (s : String) : (pyStrip s).length ≤ s.length :=
  stripChars_length_le s.data

/-- Inserting a key that is fresh for the dict appends it. -/
lemma dictInsert_fresh (d : List (String × String)) (k v : String)
    (h : ∀ p ∈ d, p.1 ≠ k) : dictInsert d k v = d ++ [(k, v)] := by
  have hany : d.any (fun p => p.1 == k) = false := by
    rw [List.any_eq_false]
    intro p hp
    simpa using h p hp
  simp [dictInsert, hany]

/-- A non-empty input makes `translate_text` consult the service. -/
lemma translate_text_called (svc : Services) (text lang : String)
    (ht : text ≠ "") : (translate_text svc text lang).2 = true := by
  unfold translate_text
  rw [if_neg ht]
  cases svc.translate lang <;> rfl

/-- Joining with a trailing non-empty element yields a non-empty string. -/
lemma pyJoin_append_ne_empty (sep : String) (xs : List String) (t : String)
    (ht : t ≠ "") : pyJoin sep (xs ++ [t]) ≠ "" := by
  cases xs with
  | nil => simpa [pyJoin]
  | cons a as =>
    have : pyJoin sep (a :: (as ++ [t])) =
        (as.foldl (fun acc x => acc ++ sep ++ x) a) ++ sep ++ t := by
      simp [pyJoin, List.foldl_append]
    rw [List.cons_append, this]
    intro hcontra
    apply ht
    have hlen := congrArg String.length hcontra
    simp only [String.length_append] at hlen
    have hzero : ("" : String).length = 0 := rfl
    have ht0 : t.length = 0 := by omega
    have hd : t.data.length = 0 := ht0
    exact String.ext (List.length_eq_zero.mp hd)

/-- A non-empty message is handed to the transport as exactly one datagram,
whatever the transport does with it. -/
lemma send_to_vrchat_ne_empty (oscSend : Datagram → Except String Unit)
    (text : String) (ht : text ≠ "") :
    send_to_vrchat oscSend text = [⟨"/chatbox/input", text, true, false⟩] := by
  unfold send_to_vrchat
  rw [if_neg ht]
  cases h : oscSend ⟨"/chatbox/input", text, true, false⟩ <;> simp [h]

/-- Normal form of the fan-out loop when every key to come is fresh. -/
lemma foldl_translationStep_eq (svc : Services) (text : String)
    (targets : List String) :
    ∀ (d : List (String × String)) (cs : List String),
      targets.Nodup → (∀ l ∈ targets, ∀ p ∈ d, p.1 ≠ l) →
      targets.foldl (translationStep svc text) (d, cs) =
        (d ++ targets.filterMap (fun l =>
            if (translate_text svc text l).1 = "" then none
            else some (l, (translate_text svc text l).1)),
         cs ++ targets.filterMap (fun l =>
            if (translate_text svc text l).2 = true then some l else none)) := by
  induction targets with
  | nil => intro d cs _ _; simp
  | cons lang rest ih =>
    intro d cs hnd hfresh
    have hndr : rest.Nodup := (List.nodup_cons.mp hnd).2
    have hlang : lang ∉ rest := (List.nodup_cons.mp hnd).1
    rw [List.foldl_cons]
    by_cases h : (translate_text svc text lang).1 = ""
    · have hstep : translationStep svc text (d, cs) lang =
          (d, cs ++ (if (translate_text svc text lang).2 = true
                     then [lang] else [])) := by
        simp [translationStep, h]
      rw [hstep, ih _ _ hndr
        (fun l hl p hp => hfresh l (List.mem_cons_of_mem _ hl) p hp)]
      by_cases hc : (translate_text svc text lang).2 = true <;>
        simp [List.filterMap_cons, h, hc]
    · have hfr : ∀ p ∈ d, p.1 ≠ lang :=
        fun p hp => hfresh lang (List.mem_cons_self _ _) p hp
      have hstep : translationStep svc text (d, cs) lang =
          (d ++ [(lang, (translate_text svc text lang).1)],
           cs ++ (if (translate_text svc text lang).2 = true
                  then [lang] else [])) := by
        simp [translationStep, h, dictInsert_fresh d lang _ hfr]
      rw [hstep, ih _ _ hndr ?fresh]
      case fresh =>
        intro l hl p hp
        rcases List.mem_append.mp hp with hp1 | hp2
        · exact hfresh l (List.mem_cons_of_mem _ hl) p hp1
        · have hpeq : p = (lang, (translate_text svc text lang).1) := by
            simpa using hp2
          subst hpeq
          intro hcontra
          apply hlang
          rw [show lang = l from hcontra]
          exact hl
      by_cases hc : (translate_text svc text lang).2 = true <;>
        simp [List.filterMap_cons, h, hc]

/-- Normal form of `buildTranslations` for distinct target languages. -/
lemma buildTranslations_eq (svc : Services) (text : String)
    (targets : List String) (hnd : targets.Nodup) :
    buildTranslations svc targets text =
      (targets.filterMap (fun l =>
          if (translate_text svc text l).1 = "" then none
          else some (l, (translate_text svc text l).1)),
       targets.filterMap (fun l =>
          if (translate_text svc text l).2 = true then some l else none)) := by
  have h := foldl_translationStep_eq svc text targets [] [] hnd (by simp)
  simpa [buildTranslations] using h

/-- When the text is non-empty the loop consults the service for every
configured language. -/
lemma filterMap_called_eq (svc : Services) (text : String)
    (targets : List String) (ht : text ≠ "") :
    targets.filterMap (fun l =>
        if (translate_text svc text l).2 = true then some l else none) =
      targets := by
  induction targets with
  | nil => rfl
  | cons lang rest ih =>
    simp [List.filterMap_cons, translate_text_called svc text lang ht, ih]

/-- Projecting the values out of the normal-form dict. -/
lemma filterMap_snd_of_pairs (v : String → String) (targets : List String) :
    (targets.filterMap (fun l =>
        if v l = "" then none else some (l, v l))).filterMap
      (fun p => if p.2 = "" then none else some p.2) =
    targets.filterMap (fun l => if v l = "" then none else some (v l)) := by
  induction targets with
  | nil => rfl
  | cons l rest ih =>
    by_cases h : v l = "" <;> simp [List.filterMap_cons, h, ih]

/-- Formatting the normal-form dict: the non-empty translation values in
list order, then the original text. -/
lemma format_output_values (v : String → String) (targets : List String)
    (t : String) (ht : t ≠ "") :
    format_output (targets.filterMap (fun l =>
        if v l = "" then none else some (l, v l))) t =
      pyJoin "\n" ((targets.filterMap (fun l =>
        if v l = "" then none else some (v l))) ++ [t]) := by
  unfold format_output
  simp only [ht, if_false, ite_false, filterMap_snd_of_pairs]

/-- Normal form of the translate / format / dispatch stage for a non-empty
transcription and distinct target languages. -/
lemma processText_normal (svc : Services) (targets : List String)
    (oscSend : Datagram → Except String Unit) (t : String)
    (hnd : targets.Nodup) (ht : t ≠ "") :
    processText svc targets oscSend t =
      (targets.filterMap (fun l =>
          if (translate_text svc t l).1 = "" then none
          else some (l, (translate_text svc t l).1)),
       targets,
       [⟨"/chatbox/input",
         pyJoin "\n" ((targets.filterMap (fun l =>
           if (translate_text svc t l).1 = "" then none
           else some ((translate_text svc t l).1))) ++ [t]),
         true, false⟩]) := by
  unfold processText
  rw [if_neg ht]
  simp only [buildTranslations_eq svc t targets hnd,
    filterMap_called_eq svc t targets ht]
  rw [format_output_values (fun l => (translate_text svc t l).1) targets t ht]
  rw [send_to_vrchat_ne_empty _ _ (pyJoin_append_ne_empty _ _ _ ht)]

/-- C5: a dequeued session whose audio is shorter than the fixed minimum
of 0.5 seconds (fewer than `RATE * 0.5` int16 samples) is discarded: the
speech-to-text model is not called, no translation call is issued, and no
output message is dispatched. -/
theorem short_audio_job_discarded (rate : Nat) (svc : Services)
    (targets : List String) (oscSend : Datagram → Except String Unit)
    (frames : List Nat) (hshort : 2 * sampleCount frames < rate) :
    processJob rate svc targets oscSend frames = ⟨false, false, [], [], []⟩ := by
  simp [processJob, transcribe_audio, hshort]

/-- Witness for C5: at 16000 Hz a single 100-byte frame (50 samples) is
below the threshold and the job leaves no trace. -/
theorem short_audio_job_discarded_witness :
    2 * sampleCount [100] < 16000 ∧
    processJob 16000 svcDemo ["en", "ja"] oscOk [100] =
      ⟨false, false, [], [], []⟩ :=
  ⟨by decide,
   short_audio_job_discarded 16000 svcDemo ["en", "ja"] oscOk [100] (by decide)⟩

/-- C6: a dequeued session whose speech-to-text call fails, or whose
transcription strips to the empty string, is discarded: `transcribe_audio`
returns `none`, no translation call occurs, the translation set stays
empty, and nothing is dispatched. -/
theorem empty_transcription_job_discarded (rate : Nat) (svc : Services)
    (targets : List String) (oscSend : Datagram → Except String Unit)
    (frames : List Nat)
    (hempty : svc.stt = ServiceResult.failure ∨
              ∃ raw, svc.stt = ServiceResult.ok raw ∧ pyStrip raw = "") :
    (transcribe_audio rate svc frames).1 = none ∧
    (processJob rate svc targets oscSend frames).translateCalls = [] ∧
    (processJob rate svc targets oscSend frames).translations = [] ∧
    (processJob rate svc targets oscSend frames).dispatched = [] := by
  have hnone : (transcribe_audio rate svc frames).1 = none := by
    unfold transcribe_audio
    by_cases hs : 2 * sampleCount frames < rate
    · simp [hs]
    · rcases hempty with hf | ⟨raw, hok, hstrip⟩
      · simp [hs, hf]
      · simp [hs, hok, hstrip]
  refine ⟨hnone, ?_, ?_, ?_⟩ <;> simp [processJob, hnone]

/-- Witness for C6: the speech-to-text call throws and the job leaves no
translations and no dispatch. -/
theorem empty_transcription_job_discarded_witness :
    (svcSttDown.stt = ServiceResult.failure ∨
      ∃ raw, svcSttDown.stt = ServiceResult.ok raw ∧ pyStrip raw = "") ∧
    ((transcribe_audio 16000 svcSttDown [16000]).1 = none ∧
     (processJob 16000 svcSttDown ["en"] oscOk [16000]).translateCalls = [] ∧
     (processJob 16000 svcSttDown ["en"] oscOk [16000]).translations = [] ∧
     (processJob 16000 svcSttDown ["en"] oscOk [16000]).dispatched = []) :=
  ⟨Or.inl rfl,
   empty_transcription_job_discarded 16000 svcSttDown ["en"] oscOk [16000]
     (Or.inl rfl)⟩

/-- C8: dispatch no-ops on an empty message; otherwise it hands the
transport exactly one datagram to address `/chatbox/input` with payload
triple `[message, true, false]`; and the observable behaviour does not
depend on whether the transport succeeds, so a send failure neither
propagates nor triggers a retry. -/
theorem dispatch_wire_contract
    (oscSend oscSendB : Datagram → Except String Unit) (text : String) :
    (text = "" → send_to_vrchat oscSend text = []) ∧
    (text ≠ "" → send_to_vrchat oscSend text =
        [⟨"/chatbox/input", text, true, false⟩]) ∧
    send_to_vrchat oscSend text = send_to_vrchat oscSendB text := by
  refine ⟨fun h => by simp [send_to_vrchat, h],
          fun h => send_to_vrchat_ne_empty _ _ h, ?_⟩
  by_cases h : text = ""
  · simp [send_to_vrchat, h]
  · rw [send_to_vrchat_ne_empty _ _ h, send_to_vrchat_ne_empty _ _ h]

/-- Witness for C8: a failing transport still results in the single
attempted datagram and no propagated error. -/
theorem dispatch_wire_contract_witness :
    ("hello" : String) ≠ "" ∧
    send_to_vrchat oscDown "hello" =
      [⟨"/chatbox/input", "hello", true, false⟩] :=
  ⟨by decide, (dispatch_wire_contract oscDown oscOk "hello").2.1 (by decide)⟩

/-- C9: stopping a recording whose frame buffer is empty enqueues nothing:
the translation queue is left unchanged (an error is logged instead). -/
theorem empty_buffer_not_enqueued (s : SysState) (h : s.audio_data = []) :
    (stop_recording s).translation_queue = s.translation_queue := by
  unfold stop_recording
  by_cases hr : s.is_recording = false
  · simp [hr]
  · simp [hr, h]

/-- Witness for C9: a recording state with an empty buffer and a
non-trivial queue keeps its queue on stop. -/
theorem empty_buffer_not_enqueued_witness :
    (⟨true, false, true, [], [[1, 2]], 3⟩ : SysState).audio_data = [] ∧
    (stop_recording ⟨true, false, true, [], [[1, 2]], 3⟩).translation_queue =
      [[1, 2]] := by
  refine ⟨rfl, ?_⟩
  have h := empty_buffer_not_enqueued ⟨true, false, true, [], [[1, 2]], 3⟩ rfl
  simpa using h

/-- C10: when opening the audio stream raises, `start_recording` resets
the recording flag to `false` and starts no session, and a subsequent
press of the trigger key (while not translating) starts a recording
normally. -/
theorem failed_open_resets_state (s : SysState) (h : s.is_recording = false) :
    (start_recording false s).is_recording = false ∧
    (start_recording false s).sessionsStarted = s.sessionsStarted ∧
    (on_press true false s).is_recording = false ∧
    (s.is_translating = false →
      (on_press true true (on_press true false s)).is_recording = true ∧
      (on_press true true (on_press true false s)).sessionsStarted =
        s.sessionsStarted + 1) := by
  refine ⟨by simp [start_recording, h], by simp [start_recording, h], ?_, ?_⟩
  · unfold on_press
    by_cases htr : s.is_translating = false
    · simp [h, htr, start_recording]
    · simp [h, htr]
  · intro htr
    constructor <;> simp [on_press, start_recording, h, htr]

/-- Witness for C10: from the idle state a failed press then a successful
press yields a recording and exactly one session. -/
theorem failed_open_resets_state_witness :
    s0.is_recording = false ∧
    (on_press true false s0).is_recording = false ∧
    (on_press true true (on_press true false s0)).is_recording = true ∧
    (on_press true true (on_press true false s0)).sessionsStarted = 1 := by
  have h := failed_open_resets_state s0 rfl
  exact ⟨rfl, h.2.2.1, (h.2.2.2 rfl).1, (h.2.2.2 rfl).2⟩

/-- Unfolding one key event of a run. -/
lemma runKeys_cons (e : KeyEvent) (evs : List KeyEvent) (s : SysState) :
    runKeys (e :: evs) s = runKeys evs (stepKey e s) :=
  rfl

/-- While a recording is active, further presses of the trigger key leave
the recording running and start no session. -/
lemma runKeys_pressed_invariant (evs : List KeyEvent) :
    ∀ s : SysState, s.is_recording = true →
      (∀ e ∈ evs, e = KeyEvent.press true true) →
      (runKeys evs s).sessionsStarted = s.sessionsStarted ∧
      (runKeys evs s).is_recording = true := by
  induction evs with
  | nil => intro s h _; exact ⟨rfl, h⟩
  | cons e rest ih =>
    intro s h hall
    have he := hall e (List.mem_cons_self _ _)
    subst he
    rw [runKeys_cons]
    have hstep : stepKey (KeyEvent.press true true) s =
        { s with hotkey_pressed := true } := by
      simp [stepKey, on_press, h]
    rw [hstep]
    have hrest := ih { s with hotkey_pressed := true } (by simpa using h)
        (fun e he2 => hall e (List.mem_cons_of_mem _ he2))
    simpa using hrest

/-- C3: from an idle, non-translating state, any non-empty run of presses
of the trigger key with no intervening release starts exactly one
RecordingSession; a press while already recording starts no session; and a
press observed while a pipeline job is in flight starts no recording and
no session. -/
theorem hotkey_single_session (s : SysState) (evs : List KeyEvent)
    (hrec : s.is_recording = false) (htr : s.is_translating = false)
    (hne : evs ≠ []) (hall : ∀ e ∈ evs, e = KeyEvent.press true true) :
    (runKeys evs s).sessionsStarted = s.sessionsStarted + 1 ∧
    (∀ s2 : SysState, s2.is_recording = true → ∀ o : Bool,
        (on_press true o s2).sessionsStarted = s2.sessionsStarted) ∧
    (∀ s2 : SysState, s2.is_translating = true → ∀ o : Bool,
        (on_press true o s2).sessionsStarted = s2.sessionsStarted ∧
        (on_press true o s2).is_recording = s2.is_recording) := by
  refine ⟨?_, ?_, ?_⟩
  · obtain ⟨e, rest, rfl⟩ := List.exists_cons_of_ne_nil hne
    have he := hall e (List.mem_cons_self _ _)
    subst he
    rw [runKeys_cons]
    have h1 : (stepKey (KeyEvent.press true true) s).is_recording = true := by
      simp [stepKey, on_press, start_recording, hrec, htr]
    have h2 : (stepKey (KeyEvent.press true true) s).sessionsStarted =
        s.sessionsStarted + 1 := by
      simp [stepKey, on_press, start_recording, hrec, htr]
    have hrest := runKeys_pressed_invariant rest _ h1
        (fun e he2 => hall e (List.mem_cons_of_mem _ he2))
    rw [hrest.1, h2]
  · intro s2 h o
    simp [on_press, h]
  · intro s2 h o
    constructor <;> simp [on_press, h]

/-- Witness for C3: two presses without a release from the idle state
start exactly one session. -/
theorem hotkey_single_session_witness :
    (runKeys [KeyEvent.press true true, KeyEvent.press true true]
        s0).sessionsStarted = s0.sessionsStarted + 1 :=
  (hotkey_single_session s0
    [KeyEvent.press true true, KeyEvent.press true true]
    rfl rfl (by decide) (by decide)).1

/-- C4: the worker drains the queue strictly FIFO and sequentially — the
result list is the per-job processing of the enqueued sessions in enqueue
order, each job reduced to its terminal result before the next is touched
(the recursion only reaches a later queue entry through the completed
result of the earlier one); with no sentinel the loop never terminates
(flag `false`, the worker keeps polling), and the sentinel `none` makes it
terminate after the jobs enqueued before it. -/
theorem worker_fifo_and_sentinel (rate : Nat) (targets : List String)
    (jobs : List Job) :
    (process_translation_queue rate targets (jobs.map some)).1 =
      jobs.map (fun j => processJob rate j.svc targets j.oscSend j.frames) ∧
    (process_translation_queue rate targets (jobs.map some)).2 = false ∧
    (process_translation_queue rate targets (jobs.map some ++ [none])).1 =
      jobs.map (fun j => processJob rate j.svc targets j.oscSend j.frames) ∧
    (process_translation_queue rate targets (jobs.map some ++ [none])).2 =
      true := by
  induction jobs with
  | nil => simp [process_translation_queue]
  | cons j rest ih =>
    obtain ⟨ih1, ih2, ih3, ih4⟩ := ih
    refine ⟨?_, ?_, ?_, ?_⟩ <;>
      simp [process_translation_queue, ih1, ih2, ih3, ih4]

/-- C1: for a non-empty transcription the dispatched OutputMessage is the
newline-join of the non-empty translation values taken in configured
target-language order (the dict iterates in insertion order, and
insertions happen in configured order), followed by the original text;
empty translation values are omitted; when every translation fails the
message is the original text alone; and when the original text is empty
nothing is dispatched. -/
theorem output_message_contract (svc : Services) (targets : List String)
    (oscSend : Datagram → Except String Unit) (t : String)
    (hnd : targets.Nodup) :
    (t ≠ "" → (processText svc targets oscSend t).2.2 =
        [⟨"/chatbox/input",
          pyJoin "\n" ((targets.filterMap (fun l =>
            if (translate_text svc t l).1 = "" then none
            else some ((translate_text svc t l).1))) ++ [t]),
          true, false⟩]) ∧
    (t ≠ "" → (∀ l ∈ targets, (translate_text svc t l).1 = "") →
        (processText svc targets oscSend t).2.2 =
          [⟨"/chatbox/input", t, true, false⟩]) ∧
    (t = "" → (processText svc targets oscSend t).2.2 = []) := by
  refine ⟨fun ht => ?_, fun ht hall => ?_, fun ht => ?_⟩
  · rw [processText_normal svc targets oscSend t hnd ht]
  · rw [processText_normal svc targets oscSend t hnd ht]
    have hnil : targets.filterMap (fun l =>
        if (translate_text svc t l).1 = "" then none
        else some ((translate_text svc t l).1)) = [] := by
      rw [List.filterMap_eq_nil_iff]
      intro l hl
      simp [hall l hl]
    rw [hnil]
    rfl
  · simp [processText, ht]

/-- Witness for C1, the end-to-end example: source zh, targets en and ja,
transcription 你好世界, refinement unchanged, both translations succeed. -/
theorem output_message_contract_witness :
    ("你好世界" : String) ≠ "" ∧
    (processText svcDemo ["en", "ja"] oscOk "你好世界").2.2 =
      [⟨"/chatbox/input", "Hello world\nこんにちは世界\n你好世界",
        true, false⟩] := by
  refine ⟨by decide, ?_⟩
  have h := (output_message_contract svcDemo ["en", "ja"] oscOk "你好世界"
    (by decide)).1 (by decide)
  rw [h]
  rfl

/-- In the normal-form dict a single failing language is dropped and every
other language keeps its own translation. -/
lemma filterMap_pairs_single_failure (r : String → String) (bad : String)
    (hbad : r bad = "") (targets : List String) :
    (∀ l ∈ targets, l ≠ bad → r l ≠ "") →
    targets.filterMap (fun l => if r l = "" then none else some (l, r l)) =
      (targets.filter (fun l => l ≠ bad)).map (fun l => (l, r l)) := by
  induction targets with
  | nil => intro _; rfl
  | cons l rest ih =>
    intro hok
    have hrest := ih (fun x hx => hok x (List.mem_cons_of_mem _ hx))
    by_cases he : l = bad
    · subst he
      simp [List.filterMap_cons, List.filter_cons, hbad, hrest]
    · have hr : r l ≠ "" := hok l (List.mem_cons_self _ _) he
      simp [List.filterMap_cons, List.filter_cons, he, hr, hrest]

/-- Same as `filterMap_pairs_single_failure` on the value lists. -/
lemma filterMap_vals_single_failure (r : String → String) (bad : String)
    (hbad : r bad = "") (targets : List String) :
    (∀ l ∈ targets, l ≠ bad → r l ≠ "") →
    targets.filterMap (fun l => if r l = "" then none else some (r l)) =
      (targets.filter (fun l => l ≠ bad)).map r := by
  induction targets with
  | nil => intro _; rfl
  | cons l rest ih =>
    intro hok
    have hrest := ih (fun x hx => hok x (List.mem_cons_of_mem _ hx))
    by_cases he : l = bad
    · subst he
      simp [List.filterMap_cons, List.filter_cons, hbad, hrest]
    · have hr : r l ≠ "" := hok l (List.mem_cons_self _ _) he
      simp [List.filterMap_cons, List.filter_cons, he, hr, hrest]

/-- C2: when exactly one target language's translation call fails, the
fan-out still consults the service for every configured language, the
translation set keeps every other language with its own translation and
omits only the failed one, and the dispatched message is the successful
translations (in configured order) plus the original text. -/
theorem translation_failure_isolated (svc : Services) (targets : List String)
    (oscSend : Datagram → Except String Unit) (t bad : String)
    (hnd : targets.Nodup) (ht : t ≠ "")
    (hfail : (translate_text svc t bad).1 = "")
    (hok : ∀ l ∈ targets, l ≠ bad → (translate_text svc t l).1 ≠ "") :
    (processText svc targets oscSend t).2.1 = targets ∧
    (processText svc targets oscSend t).1 =
      (targets.filter (fun l => l ≠ bad)).map
        (fun l => (l, (translate_text svc t l).1)) ∧
    (processText svc targets oscSend t).2.2 =
      [⟨"/chatbox/input",
        pyJoin "\n" (((targets.filter (fun l => l ≠ bad)).map
          (fun l => (translate_text svc t l).1)) ++ [t]),
        true, false⟩] := by
  rw [processText_normal svc targets oscSend t hnd ht]
  refine ⟨rfl, ?_, ?_⟩
  · exact filterMap_pairs_single_failure _ bad hfail targets hok
  · rw [filterMap_vals_single_failure _ bad hfail targets hok]

/-- Witness for C2, the spec's example: targets en and ja, the ja call
throws, en succeeds with Hello, source text 你好; the message is
Hello, newline, 你好, and the translation set has only en. -/
theorem translation_failure_isolated_witness :
    (translate_text svcOneFail "你好" "ja").1 = "" ∧
    (∀ l ∈ (["en", "ja"] : List String), l ≠ "ja" →
        (translate_text svcOneFail "你好" l).1 ≠ "") ∧
    (processText svcOneFail ["en", "ja"] oscOk "你好").1 =
      [("en", "Hello")] ∧
    (processText svcOneFail ["en", "ja"] oscOk "你好").2.2 =
      [⟨"/chatbox/input", "Hello\n你好", true, false⟩] := by
  refine ⟨by decide, by decide, ?_, ?_⟩ <;> ·
    have h := translation_failure_isolated svcOneFail ["en", "ja"] oscOk
      "你好" "ja" (by decide) (by decide) (by decide) (by decide)
    first
    | (rw [h.2.1]; rfl)
    | (rw [h.2.2]; rfl)

/-- With a failing correction service `semantic_correction` returns its
input unchanged. -/
lemma semantic_correction_fail_fst (svc : Services) (text : String)
    (h : svc.correct = ServiceResult.failure) :
    (semantic_correction svc text).1 = text := by
  unfold semantic_correction
  by_cases hcond : (text = "" ∨ (pyStrip text).length < 2)
  · rw [if_pos hcond]
  · rw [if_neg hcond, h]

/-- C7: refinement returns its input unchanged for inputs shorter than two
characters, on a failed correction call, and on an empty or identical
service response; and a refinement failure never prevents translation —
the pipeline transcribes to the unrefined text, still consults the
translation service for every configured language, and dispatches exactly
what it would dispatch for that unrefined text. -/
theorem refinement_best_effort (svc : Services) (text : String) :
    (text.length < 2 → (semantic_correction svc text).1 = text) ∧
    (svc.correct = ServiceResult.failure →
      (semantic_correction svc text).1 = text) ∧
    (∀ resp, svc.correct = ServiceResult.ok resp →
      (pyStrip resp = "" ∨ pyStrip resp = text) →
      (semantic_correction svc text).1 = text) ∧
    (∀ (rate : Nat) (targets : List String)
        (oscSend : Datagram → Except String Unit)
        (frames : List Nat) (raw : String),
      svc.correct = ServiceResult.failure → targets.Nodup →
      ¬ 2 * sampleCount frames < rate →
      svc.stt = ServiceResult.ok raw → pyStrip raw ≠ "" →
      (transcribe_audio rate svc frames).1 = some (pyStrip raw) ∧
      (processJob rate svc targets oscSend frames).translateCalls = targets ∧
      (processJob rate svc targets oscSend frames).dispatched =
        (processText svc targets oscSend (pyStrip raw)).2.2) := by
  refine ⟨fun hlen => ?_, fun hc => semantic_correction_fail_fst svc text hc,
          fun resp hc hresp => ?_, ?_⟩
  · have hstrip : (pyStrip text).length < 2 :=
      lt_of_le_of_lt (pyStrip_length_le text) hlen
    unfold semantic_correction
    rw [if_pos (Or.inr hstrip)]
  · unfold semantic_correction
    by_cases hcond : (text = "" ∨ (pyStrip text).length < 2)
    · rw [if_pos hcond]
    · rw [if_neg hcond, hc]
      simp only []
      rcases hresp with h1 | h1 <;> simp [h1]
  · intro rate targets oscSend frames raw hc hnd hlong hstt hraw
    have htrans : transcribe_audio rate svc frames =
        (some (pyStrip raw), true, (semantic_correction svc (pyStrip raw)).2) := by
      unfold transcribe_audio
      rw [if_neg hlong, hstt]
      simp [hraw, semantic_correction_fail_fst svc (pyStrip raw) hc]
    have hnorm := processText_normal svc targets oscSend (pyStrip raw) hnd hraw
    refine ⟨by rw [htrans], ?_, ?_⟩ <;>
      simp [processJob, htrans, hnorm]

/-- Witness for C7: with the correction call failing, transcription 你好
reaches the translator unchanged and the dispatched message is built from
the unrefined text. -/
theorem refinement_best_effort_witness :
    svcRefineDown.correct = ServiceResult.failure ∧
    (semantic_correction svcRefineDown "你好").1 = "你好" ∧
    (transcribe_audio 16000 svcRefineDown [16000]).1 = some "你好" ∧
    (processJob 16000 svcRefineDown ["en"] oscOk [16000]).dispatched =
      [⟨"/chatbox/input", "Hello\n你好", true, false⟩] := by
  have hmain := refinement_best_effort svcRefineDown "你好"
  have hpipe := hmain.2.2.2 16000 ["en"] oscOk [16000] "你好"
    rfl (by decide) (by decide) rfl (by decide)
  refine ⟨rfl, hmain.2.1 rfl, ?_, ?_⟩
  · have h := hpipe.1
    rw [h]
    rfl
  · have h := hpipe.2.2
    rw [h]
    rfl

end VRCT
